import Mathlib

set_option maxRecDepth 4000

namespace McpGmail

/-!
Verification of the mcp-gmail token store, retry wrapper, query builder,
reply assembly and batch fetch against their source in
src/mcp_gmail/gmail.py and src/mcp_gmail/server.py.

JSON values loaded by json.load are modelled by the inductive Json below;
Python dicts become ordered association lists (json.load keeps insertion
order and dict assignment keeps the position of an existing key).
-/

inductive Json where
  | null
  | bool (b : Bool)
  | num (n : Int)
  | str (s : String)
  | arr (elems : List Json)
  | obj (fields : List (String × Json))

/-- Python truthiness of a JSON value (used by `if token_data:` and similar). -/
def jsonTruthy : Json → Bool
  | Json.null => false
  | Json.bool b => b
  | Json.num n => n != 0
  | Json.str s => s != ""
  | Json.arr xs => !xs.isEmpty
  | Json.obj fs => !fs.isEmpty

/-- Python dict lookup `data.get(k)` on an association list. -/
def dictGet (fields : List (String × Json)) (k : String) : Option Json :=
  (fields.find? (fun p => p.1 == k)).map Prod.snd

/-- Python dict assignment `data[k] = v`: replace in place if the key exists,
otherwise append at the end (insertion order semantics). -/
def dictSet (fields : List (String × Json)) (k : String) (v : Json) : List (String × Json) :=
  if fields.any (fun p => p.1 == k) then
    fields.map (fun p => if p.1 == k then (k, v) else p)
  else fields ++ [(k, v)]

/-- gmail.py `_is_legacy_token_format`: data is a dict with a top-level
refresh_token key. -/
def isLegacyTokenFormat : Json → Bool
  | Json.obj fields => fields.any (fun p => p.1 == "refresh_token")
  | _ => false

/-- gmail.py `get_account_keys`: keys of the token file (empty when the file
is absent, the sole key default for a legacy file). -/
def getAccountKeys (fileContent : Option Json) : List String :=
  match fileContent with
  | none => []
  | some d =>
    if isLegacyTokenFormat d then ["default"]
    else match d with
      | Json.obj fields => fields.map Prod.fst
      | _ => []

/-- Insert a string into an already sorted list (ascending). -/
def insertKeySorted (s : String) : List String → List String
  | [] => [s]
  | x :: xs => if s ≤ x then s :: x :: xs else x :: insertKeySorted s xs

/-- Python `sorted(data.keys())` for the error message listing available keys. -/
def sortKeys (fields : List (String × Json)) : List String :=
  (fields.map Prod.fst).foldr insertKeySorted []

/-- gmail.py `_save_token_file`: the new content of the token file.
`diskContent` is the on-disk state re-read at line 96, `existingData` the
snapshot taken by the caller.  Returns none exactly when Python would raise
a TypeError (item assignment on a non-dict). -/
def saveTokenFile (diskContent : Option Json) (tokenJson : Json) (accountKey : String)
    (isMulti : Bool) (existingData : Option Json) : Option Json :=
  let legacyWithOther :=
    match existingData with
    | some d => isLegacyTokenFormat d && accountKey != "default"
    | none => false
  if isMulti || legacyWithOther then
    let data : Json :=
      match diskContent with
      | some d => if isLegacyTokenFormat d then Json.obj [("default", d)] else d
      | none => Json.obj []
    match data with
    | Json.obj fields => some (Json.obj (dictSet fields accountKey tokenJson))
    | _ => none
  else
    some tokenJson

/-- Outcome of the credential resolution at the top of gmail.py
`get_gmail_service` (lines 133 to 156). -/
inductive ResolveOutcome where
  | creds (tokenData : Json) (isMultiFile : Bool)
  | noCreds (isMultiFile : Bool)
  | unknownAccount (available : List String)
  | attrError

/-- gmail.py line 134 `account_key = account or "default"`: a None or
falsy (empty-string) account coalesces to default. -/
def pyAccountKey (account : Option String) : String :=
  match account with
  | some a => if a == "" then "default" else a
  | none => "default"

/-- gmail.py `get_gmail_service` lines 133 to 156: classify the token file and
look up the requested account.  `noCreds` means creds stays None, so the
interactive authorization flow runs next. -/
def resolveCreds (fileContent : Option Json) (account : Option String) : ResolveOutcome :=
  let accountKey := pyAccountKey account
  match fileContent with
  | none => ResolveOutcome.noCreds false
  | some d =>
    if isLegacyTokenFormat d then
      match account with
      | none => ResolveOutcome.creds d false
      | some _ => ResolveOutcome.noCreds false
    else
      match d with
      | Json.obj fields =>
        match dictGet fields accountKey with
        | some t =>
          if jsonTruthy t then ResolveOutcome.creds t true
          else match account with
            | some _ => ResolveOutcome.unknownAccount (sortKeys fields)
            | none => ResolveOutcome.noCreds true
        | none =>
          match account with
          | some _ => ResolveOutcome.unknownAccount (sortKeys fields)
          | none => ResolveOutcome.noCreds true
      | _ => ResolveOutcome.attrError

/-- gmail.py `get_gmail_service` lines 157 to 170 in the case where no stored
credential was usable and the interactive flow returned `freshToken`:
the new content of the token file after `_save_token_file`.
`is_multi_file` is true exactly when the file existed and was not legacy. -/
def authorizeAndSave (fileContent : Option Json) (account : Option String)
    (freshToken : Json) : Option Json :=
  let accountKey := pyAccountKey account
  let isMultiFile :=
    match fileContent with
    | some d => !isLegacyTokenFormat d
    | none => false
  saveTokenFile fileContent freshToken accountKey isMultiFile fileContent

/-! ### Lemmas about dictSet / dictGet -/

lemma find_set_mem (k : String) (v : Json) :
    ∀ fields : List (String × Json), fields.any (fun p => p.1 == k) = true →
      (fields.map (fun p => if p.1 == k then (k, v) else p)).find? (fun p => p.1 == k) =
        some (k, v) := by
  intro fields h
  induction fields with
  | nil => simp at h
  | cons p ps ih =>
    rw [List.map_cons]
    by_cases hpk : p.1 = k
    · have himg : (if p.1 == k then (k, v) else p) = (k, v) := by simp [hpk]
      rw [himg, List.find?_cons_of_pos _ (by simp)]
    · have himg : (if p.1 == k then (k, v) else p) = p := by simp [hpk]
      rw [himg, List.find?_cons_of_neg _ (by simp [hpk])]
      apply ih
      simpa [hpk] using h

lemma find_set_not_mem (k : String) (v : Json) :
    ∀ fields : List (String × Json), fields.any (fun p => p.1 == k) = false →
      (fields ++ [(k, v)]).find? (fun p => p.1 == k) = some (k, v) := by
  intro fields h
  induction fields with
  | nil => rw [List.nil_append, List.find?_cons_of_pos _ (by simp)]
  | cons p ps ih =>
    simp only [List.any_cons, Bool.or_eq_false_iff] at h
    rw [List.cons_append, List.find?_cons_of_neg _ (by simp [h.1])]
    exact ih h.2

lemma bool_not_true_eq_false {b : Bool} (h : ¬ b = true) : b = false := by
  cases b
  · rfl
  · exact absurd rfl h

lemma dictGet_dictSet_self (fields : List (String × Json)) (k : String) (v : Json) :
    dictGet (dictSet fields k v) k = some v := by
  unfold dictSet
  by_cases hany : fields.any (fun p => p.1 == k) = true
  · rw [if_pos hany]
    unfold dictGet
    rw [find_set_mem k v fields hany]
    rfl
  · rw [if_neg hany]
    unfold dictGet
    rw [find_set_not_mem k v fields (bool_not_true_eq_false hany)]
    rfl

lemma find_set_ne (k k2 : String) (v : Json) (hne : k2 ≠ k) :
    ∀ fields : List (String × Json),
      (fields.map (fun p => if p.1 == k then (k, v) else p)).find? (fun p => p.1 == k2) =
        fields.find? (fun p => p.1 == k2) := by
  intro fields
  induction fields with
  | nil => rfl
  | cons p ps ih =>
    rw [List.map_cons]
    by_cases hpk : p.1 = k
    · have himg : (if p.1 == k then (k, v) else p) = (k, v) := by simp [hpk]
      rw [himg, List.find?_cons_of_neg _ (by simp [Ne.symm hne]),
        List.find?_cons_of_neg _ (by simp [hpk, Ne.symm hne])]
      exact ih
    · have himg : (if p.1 == k then (k, v) else p) = p := by simp [hpk]
      rw [himg]
      by_cases hp2 : p.1 = k2
      · rw [List.find?_cons_of_pos _ (by simp [hp2]), List.find?_cons_of_pos _ (by simp [hp2])]
      · rw [List.find?_cons_of_neg _ (by simp [hp2]), List.find?_cons_of_neg _ (by simp [hp2])]
        exact ih

lemma find_append_single_ne (k k2 : String) (v : Json) (hne : k2 ≠ k) :
    ∀ fields : List (String × Json),
      (fields ++ [(k, v)]).find? (fun p => p.1 == k2) = fields.find? (fun p => p.1 == k2) := by
  intro fields
  induction fields with
  | nil =>
    rw [List.nil_append, List.find?_cons_of_neg _ (by simp [Ne.symm hne])]
  | cons p ps ih =>
    rw [List.cons_append]
    by_cases hp2 : p.1 = k2
    · rw [List.find?_cons_of_pos _ (by simp [hp2]), List.find?_cons_of_pos _ (by simp [hp2])]
    · rw [List.find?_cons_of_neg _ (by simp [hp2]), List.find?_cons_of_neg _ (by simp [hp2])]
      exact ih

lemma dictGet_dictSet_other (fields : List (String × Json)) (k k2 : String) (v : Json)
    (hne : k2 ≠ k) : dictGet (dictSet fields k v) k2 = dictGet fields k2 := by
  unfold dictSet
  by_cases hany : fields.any (fun p => p.1 == k) = true
  · rw [if_pos hany]
    unfold dictGet
    rw [find_set_ne k k2 v hne fields]
  · rw [if_neg hany]
    unfold dictGet
    rw [find_append_single_ne k k2 v hne fields]

/-- Core of the legacy upgrade path of `_save_token_file`: a legacy file plus a
non-default key becomes the two-key multi-account mapping. -/
lemma saveTokenFile_legacy_upgrade (d tok : Json) (k : String)
    (hleg : isLegacyTokenFormat d = true) (hk : k ≠ "default") :
    saveTokenFile (some d) tok k false (some d) =
      some (Json.obj [("default", d), (k, tok)]) := by
  have hk2 : "default" ≠ k := fun h => hk h.symm
  simp [saveTokenFile, dictSet, hleg, hk, hk2]

/-! ### Claim C1 -/

/-- A fresh OAuth token as serialized by creds.to_json (has refresh_token). -/
def workTok : Json :=
  Json.obj [("refresh_token", Json.str "rt"), ("token", Json.str "at")]

/-- C1 counterexample: with no token file, a first-ever authorization for the
explicit account key work writes the raw token at the root (legacy form,
whose only account key is default), not a multi-account mapping with the
sole key work. -/
theorem c1_counterexample :
    authorizeAndSave none (some "work") workTok = some workTok
    ∧ isLegacyTokenFormat workTok = true
    ∧ getAccountKeys (some workTok) = ["default"]
    ∧ (["default"] : List String) ≠ ["work"] := by
  refine ⟨rfl, rfl, rfl, by decide⟩

/-- C1 amended: when the token file does not exist, a first-ever interactive
authorization writes the fresh token directly at the root (legacy form),
whatever account key was supplied; is_multi is false for a nonexistent file
and nothing forces the multi-account form, so the explicit account key is not
recorded.  Moreover any legacy-classified file lists default as its only
account key. -/
theorem c1_amended :
    (∀ (account : Option String) (tok : Json),
        authorizeAndSave none account tok = some tok)
    ∧ (∀ tok : Json, isLegacyTokenFormat tok = true →
        getAccountKeys (some tok) = ["default"]) := by
  constructor
  · intro account tok
    rfl
  · intro tok h
    simp [getAccountKeys, h]

/-- Witness for C1 amended at a concrete input. -/
theorem c1_witness :
    authorizeAndSave none (some "work") workTok = some workTok
    ∧ getAccountKeys (some workTok) = ["default"] :=
  ⟨c1_amended.1 (some "work") workTok, c1_amended.2 workTok rfl⟩

/-! ### Claim C2 -/

/-- A legacy token file: a single token object at the root. -/
def legacyTok : Json := Json.obj [("refresh_token", Json.str "rt")]

/-- C2 counterexample: explicitly requesting account work against a legacy
token file is not a hard UnknownAccount error; creds silently stays None and
the interactive authorization flow (new account creation) runs next. -/
theorem c2_counterexample :
    resolveCreds (some legacyTok) (some "work") = ResolveOutcome.noCreds false
    ∧ resolveCreds (some legacyTok) (some "work") ≠
        ResolveOutcome.unknownAccount ["default"] := by
  refine ⟨rfl, ?_⟩
  intro h
  rw [show resolveCreds (some legacyTok) (some "work") = ResolveOutcome.noCreds false from rfl] at h
  exact ResolveOutcome.noConfusion h

/-- C2 amended: against a legacy file, any explicitly requested account key
(default included) silently resolves to no credentials, so the interactive
authorization flow runs and — for a non-default, non-empty key — saves the
new token by upgrading the file to multi-account form (new account
creation; an explicit empty-string key is falsy and coalesces to default).
The UnknownAccount error naming the available keys is raised only against
multi-account files when the entry looked up under the coalesced account
key is missing or empty. -/
theorem c2_amended :
    (∀ (d : Json) (k : String), isLegacyTokenFormat d = true →
        resolveCreds (some d) (some k) = ResolveOutcome.noCreds false)
    ∧ (∀ (fields : List (String × Json)) (k : String),
        isLegacyTokenFormat (Json.obj fields) = false →
        (∀ t, dictGet fields (pyAccountKey (some k)) = some t → jsonTruthy t = false) →
        resolveCreds (some (Json.obj fields)) (some k) =
          ResolveOutcome.unknownAccount (sortKeys fields))
    ∧ (∀ (d tok : Json) (k : String), isLegacyTokenFormat d = true →
        k ≠ "default" → k ≠ "" →
        authorizeAndSave (some d) (some k) tok =
          some (Json.obj [("default", d), (k, tok)])) := by
  refine ⟨?_, ?_, ?_⟩
  · intro d k h
    simp [resolveCreds, h]
  · intro fields k hm ht
    cases hg : dictGet fields (pyAccountKey (some k)) with
    | none => simp [resolveCreds, hm, hg]
    | some t => simp [resolveCreds, hm, hg, ht t hg]
  · intro d tok k hleg hk hk0
    have hak : pyAccountKey (some k) = k := by simp [pyAccountKey, hk0]
    have hml : (!isLegacyTokenFormat d) = false := by simp [hleg]
    simp only [authorizeAndSave, hak, hml]
    exact saveTokenFile_legacy_upgrade d tok k hleg hk

/-- Witness for C2 amended at concrete inputs. -/
theorem c2_witness :
    resolveCreds (some legacyTok) (some "personal") = ResolveOutcome.noCreds false
    ∧ resolveCreds (some (Json.obj [("default", Json.str "tok")])) (some "work") =
        ResolveOutcome.unknownAccount ["default"]
    ∧ authorizeAndSave (some legacyTok) (some "work") workTok =
        some (Json.obj [("default", legacyTok), ("work", workTok)]) := by
  refine ⟨c2_amended.1 legacyTok "personal" rfl, ?_, ?_⟩
  · exact c2_amended.2.1 [("default", Json.str "tok")] "work" rfl
      (fun t ht => Option.noConfusion ht)
  · exact c2_amended.2.2 legacyTok workTok "work" rfl (by decide) (by decide)

/-! ### Claim C3 -/

/-- C3: round-trip and no-clobber of the multi-account save path.  Saving a
record under a key into a multi-account file (is_multi true, the state the
caller passes for a file classified multi-account) rewrites the mapping with
that key bound to the record: looking the same key up afterwards (the
`existing_data.get(account_key)` resolution of get_gmail_service) returns
exactly the saved record, and every other key resolves to exactly what it
resolved to before — no existing record is dropped. -/
theorem c3_save_resolve_roundtrip_noclobber
    (fields : List (String × Json)) (k : String) (v : Json)
    (hmulti : isLegacyTokenFormat (Json.obj fields) = false) :
    ∃ fields2,
      saveTokenFile (some (Json.obj fields)) v k true (some (Json.obj fields)) =
        some (Json.obj fields2)
      ∧ dictGet fields2 k = some v
      ∧ ∀ k2, k2 ≠ k → dictGet fields2 k2 = dictGet fields k2 := by
  refine ⟨dictSet fields k v, ?_, dictGet_dictSet_self fields k v, ?_⟩
  · simp [saveTokenFile, hmulti]
  · intro k2 hne
    exact dictGet_dictSet_other fields k k2 v hne

/-- Witness for C3 at a concrete multi-account file. -/
theorem c3_witness :
    ∃ fields2,
      saveTokenFile (some (Json.obj [("default", Json.str "d0")])) (Json.str "w1") "work" true
          (some (Json.obj [("default", Json.str "d0")])) =
        some (Json.obj fields2)
      ∧ dictGet fields2 "work" = some (Json.str "w1")
      ∧ ∀ k2, k2 ≠ "work" →
          dictGet fields2 k2 = dictGet [("default", Json.str "d0")] k2 :=
  c3_save_resolve_roundtrip_noclobber [("default", Json.str "d0")] "work" (Json.str "w1") rfl

/-! ### Claim C4 -/

/-- C4: saving a record under a non-default key against a legacy file upgrades
it to multi-account form holding exactly the original record under default
plus the new record under the given key. -/
theorem c4_legacy_upgrade (d tok : Json) (k : String)
    (hleg : isLegacyTokenFormat d = true) (hk : k ≠ "default") :
    saveTokenFile (some d) tok k false (some d) =
      some (Json.obj [("default", d), (k, tok)]) :=
  saveTokenFile_legacy_upgrade d tok k hleg hk

/-- Witness for C4 at a concrete legacy file. -/
theorem c4_witness :
    saveTokenFile (some legacyTok) workTok "work" false (some legacyTok) =
      some (Json.obj [("default", legacyTok), ("work", workTok)]) :=
  c4_legacy_upgrade legacyTok workTok "work" rfl (by decide)

/-! ### Retry wrapper (gmail.py `_execute_with_retry`, lines 44 to 59) -/

/-- A Python exception raised by request.execute: an HttpError (whose resp
attribute may be absent, and whose status may be absent), or any other
exception, which the except clause does not catch. -/
inductive PyErr where
  | http (resp : Option (Option Nat))
  | other (msg : String)

/-- The status extraction
`getattr(e, "resp", None) and getattr(e.resp, "status", None) or 0`:
a missing resp, a missing status or a falsy status all collapse to 0. -/
def effStatus : Option (Option Nat) → Nat
  | some (some s) => s
  | some none => 0
  | none => 0

/-- The retry condition `status == 429 or (500 <= status < 600)`. -/
def isRetryableStatus (s : Nat) : Bool :=
  s == 429 || (decide (500 ≤ s) && decide (s < 600))

/-- Whether the raised error is caught and classified transient. -/
def isRetryablePyErr : PyErr → Bool
  | PyErr.http resp => isRetryableStatus (effStatus resp)
  | PyErr.other _ => false

/-- Result of one run of the retry loop: the value returned or error raised
(ok none is the fall-out-of-the-loop return None, reachable only with
max_retries = 0), the number of executions made, and the sleep durations in
order. -/
structure RunResult (α : Type) where
  result : Except PyErr (Option α)
  attempts : Nat
  sleeps : List Nat

/-- The loop of `_execute_with_retry`.  `req n` is the outcome of the n-th
execution of the request (0-based).  The fuel argument counts the remaining
loop iterations of `for attempt in range(max_retries)`. -/
def retryGo {α : Type} (req : Nat → Except PyErr α) (maxRetries : Nat) :
    Nat → Nat → List Nat → RunResult α
  | attempt, 0, sleeps => ⟨Except.ok none, attempt, sleeps⟩
  | attempt, fuel + 1, sleeps =>
    match req attempt with
    | Except.ok a => ⟨Except.ok (some a), attempt + 1, sleeps⟩
    | Except.error (PyErr.other m) => ⟨Except.error (PyErr.other m), attempt + 1, sleeps⟩
    | Except.error (PyErr.http resp) =>
      if isRetryableStatus (effStatus resp) = true ∧ attempt + 1 < maxRetries then
        retryGo req maxRetries (attempt + 1) fuel (sleeps ++ [2 ^ attempt])
      else ⟨Except.error (PyErr.http resp), attempt + 1, sleeps⟩

/-- gmail.py `_execute_with_retry` with explicit max_retries (3 at every
call site, via the default). -/
def executeWithRetry {α : Type} (req : Nat → Except PyErr α) (maxRetries : Nat) : RunResult α :=
  retryGo req maxRetries 0 maxRetries []

lemma retryable_of_5xx {s : Nat} (h1 : 500 ≤ s) (h2 : s < 600) :
    isRetryableStatus s = true := by
  simp [isRetryableStatus, h1, h2]

/-- C5: two 429 failures followed by a success return the success; three 5xx
failures propagate the last error unchanged; a single non-retryable failure
propagates immediately after exactly one execution. -/
theorem c5_retry_scenarios {α : Type} (a : α)
    (reqA reqB reqC : Nat → Except PyErr α)
    (r0 r1 s0 s1 s2 : Option (Option Nat)) (e : PyErr)
    (hA0 : reqA 0 = Except.error (PyErr.http r0))
    (hA1 : reqA 1 = Except.error (PyErr.http r1))
    (hA2 : reqA 2 = Except.ok a)
    (hr0 : effStatus r0 = 429) (hr1 : effStatus r1 = 429)
    (hB0 : reqB 0 = Except.error (PyErr.http s0))
    (hB1 : reqB 1 = Except.error (PyErr.http s1))
    (hB2 : reqB 2 = Except.error (PyErr.http s2))
    (hs0 : 500 ≤ effStatus s0 ∧ effStatus s0 < 600)
    (hs1 : 500 ≤ effStatus s1 ∧ effStatus s1 < 600)
    (hC0 : reqC 0 = Except.error e)
    (hnc : isRetryablePyErr e = false) :
    (executeWithRetry reqA 3).result = Except.ok (some a)
    ∧ (executeWithRetry reqB 3).result = Except.error (PyErr.http s2)
    ∧ (executeWithRetry reqC 3).result = Except.error e
    ∧ (executeWithRetry reqC 3).attempts = 1 := by
  refine ⟨?_, ?_, ?_, ?_⟩
  · simp [executeWithRetry, retryGo, hA0, hA1, hA2, hr0, hr1, isRetryableStatus]
  · simp [executeWithRetry, retryGo, hB0, hB1, hB2,
      retryable_of_5xx hs0.1 hs0.2, retryable_of_5xx hs1.1 hs1.2]
  · cases e with
    | other m => simp [executeWithRetry, retryGo, hC0]
    | http resp =>
      have hs : isRetryableStatus (effStatus resp) = false := hnc
      simp [executeWithRetry, retryGo, hC0, hs]
  · cases e with
    | other m => simp [executeWithRetry, retryGo, hC0]
    | http resp =>
      have hs : isRetryableStatus (effStatus resp) = false := hnc
      simp [executeWithRetry, retryGo, hC0, hs]

/-- Request failing twice with 429, then succeeding. -/
def reqA0 : Nat → Except PyErr Nat := fun n =>
  if n < 2 then Except.error (PyErr.http (some (some 429))) else Except.ok 7

/-- Request failing every time with a 5xx status. -/
def reqB0 : Nat → Except PyErr Nat := fun n =>
  Except.error (PyErr.http (some (some (500 + n))))

/-- Request failing immediately with a non-HttpError exception. -/
def reqC0 : Nat → Except PyErr Nat := fun _ =>
  Except.error (PyErr.other "boom")

/-- Witness for C5 at concrete requests. -/
theorem c5_witness :
    (executeWithRetry reqA0 3).result = Except.ok (some 7)
    ∧ (executeWithRetry reqB0 3).result =
        Except.error (PyErr.http (some (some 502)))
    ∧ (executeWithRetry reqC0 3).result = Except.error (PyErr.other "boom")
    ∧ (executeWithRetry reqC0 3).attempts = 1 :=
  c5_retry_scenarios 7 reqA0 reqB0 reqC0
    (some (some 429)) (some (some 429)) (some (some 500)) (some (some 501)) (some (some 502))
    (PyErr.other "boom") rfl rfl rfl rfl rfl rfl rfl rfl
    (by decide) (by decide) rfl rfl

/-- Request failing every time with status 429. -/
def req429 : Nat → Except PyErr Nat := fun _ =>
  Except.error (PyErr.http (some (some 429)))

/-- C6 counterexample: on persistent 429 failures the wrapper sleeps 1 then 2
time units (2 to the power 0 and 2 to the power 1) before attempts 2 and 3,
not 2 and 4 (2 to the power k-1 for k = 2, 3) as the claim states. -/
theorem c6_counterexample :
    (executeWithRetry req429 3).sleeps = [2 ^ 0, 2 ^ 1]
    ∧ (executeWithRetry req429 3).sleeps ≠ [2 ^ 1, 2 ^ 2] := by
  refine ⟨rfl, by decide⟩

/-- C6 amended: at most 3 attempts are made, at most 2 delays are slept, and
the i-th delay (0-based, the one before attempt i + 2) is 2 to the power i:
the backoff sequence starts at 1 and doubles, giving delays 1, 2 — that is,
the delay before attempt k is 2 to the power k - 2. -/
theorem c6_amended {α : Type} (req : Nat → Except PyErr α) :
    (executeWithRetry req 3).attempts ≤ 3
    ∧ (executeWithRetry req 3).sleeps.length ≤ 2
    ∧ (executeWithRetry req 3).sleeps =
        (List.range (executeWithRetry req 3).sleeps.length).map (fun i => 2 ^ i) := by
  rcases h0 : req 0 with e0 | a0
  · rcases e0 with r0 | m0
    · by_cases hb0 : isRetryableStatus (effStatus r0) = true
      · rcases h1 : req 1 with e1 | a1
        · rcases e1 with r1 | m1
          · by_cases hb1 : isRetryableStatus (effStatus r1) = true
            · rcases h2 : req 2 with e2 | a2
              · rcases e2 with r2 | m2
                · simp [executeWithRetry, retryGo, h0, h1, h2, hb0, hb1, List.range_succ]
                · simp [executeWithRetry, retryGo, h0, h1, h2, hb0, hb1, List.range_succ]
              · simp [executeWithRetry, retryGo, h0, h1, h2, hb0, hb1, List.range_succ]
            · simp [executeWithRetry, retryGo, h0, h1, hb0, hb1, List.range_succ]
          · simp [executeWithRetry, retryGo, h0, h1, hb0, List.range_succ]
        · simp [executeWithRetry, retryGo, h0, h1, hb0, List.range_succ]
      · simp [executeWithRetry, retryGo, h0, hb0]
    · simp [executeWithRetry, retryGo, h0]
  · simp [executeWithRetry, retryGo, h0]

/-! ### Query builder (gmail.py `search_messages`, lines 641 to 726) -/

/-- The structured filter set accepted by search_messages. -/
structure SearchFilters where
  isUnread : Option Bool
  labels : Option (List String)
  fromEmail : Option String
  toEmail : Option String
  subject : Option String
  after : Option String
  before : Option String
  hasAttachment : Option Bool
  isStarred : Option Bool
  isImportant : Option Bool
  inTrash : Option Bool

/-- A string-valued filter: `if value:` guards against None and the empty
string, then one clause is appended. -/
def strClause (v : Option String) (mkClause : String → String) : List String :=
  match v with
  | some s => if s == "" then [] else [mkClause s]
  | none => []

/-- A flag filter of the form `if flag is not None and flag:`. -/
def flagClause (v : Option Bool) (clause : String) : List String :=
  match v with
  | some true => [clause]
  | _ => []

/-- The query_parts list built by search_messages, in source order.  Note the
unread filter appends the empty string when is_unread is False. -/
def searchQueryParts (f : SearchFilters) : List String :=
  (match f.isUnread with
    | some b => [if b then "is:unread" else ""]
    | none => [])
  ++ (match f.labels with
    | some ls => ls.map (fun l => "label:" ++ l)
    | none => [])
  ++ strClause f.fromEmail (fun s => "from:" ++ s)
  ++ strClause f.toEmail (fun s => "to:" ++ s)
  ++ strClause f.subject (fun s => "subject:" ++ s)
  ++ strClause f.after (fun s => "after:" ++ s)
  ++ strClause f.before (fun s => "before:" ++ s)
  ++ flagClause f.hasAttachment "has:attachment"
  ++ flagClause f.isStarred "is:starred"
  ++ flagClause f.isImportant "is:important"
  ++ flagClause f.inTrash "in:trash"

/-- `query = " ".join(query_parts)`. -/
def buildSearchQuery (f : SearchFilters) : String :=
  String.intercalate " " (searchQueryParts f)

/-- The clause list as the specification words it: each recognized filter
contributes zero or one space-delimited clause in the fixed order, and an
absent or false-valued optional filter contributes nothing at all. -/
def specQueryClauses (f : SearchFilters) : List String :=
  (if f.isUnread = some true then ["is:unread"] else [])
  ++ (match f.labels with
    | some ls => ls.map (fun l => "label:" ++ l)
    | none => [])
  ++ strClause f.fromEmail (fun s => "from:" ++ s)
  ++ strClause f.toEmail (fun s => "to:" ++ s)
  ++ strClause f.subject (fun s => "subject:" ++ s)
  ++ strClause f.after (fun s => "after:" ++ s)
  ++ strClause f.before (fun s => "before:" ++ s)
  ++ flagClause f.hasAttachment "has:attachment"
  ++ flagClause f.isStarred "is:starred"
  ++ flagClause f.isImportant "is:important"
  ++ flagClause f.inTrash "in:trash"

/-- Filters with is_unread explicitly False and one label. -/
def filtersUnreadFalse : SearchFilters :=
  SearchFilters.mk (some false) (some ["x"]) none none none none none none none none none

/-- The same filters with is_unread absent. -/
def filtersUnreadNone : SearchFilters :=
  SearchFilters.mk none (some ["x"]) none none none none none none none none none

/-- C7 counterexample: a false-valued is_unread filter does contribute to the
query string — it appends an empty part, so the joined query gains a leading
space compared to leaving the filter absent. -/
theorem c7_counterexample :
    buildSearchQuery filtersUnreadFalse = " label:x"
    ∧ buildSearchQuery filtersUnreadNone = "label:x"
    ∧ buildSearchQuery filtersUnreadFalse ≠ buildSearchQuery filtersUnreadNone := by
  refine ⟨rfl, rfl, by decide⟩

/-- The concrete filter set of the claim. -/
def filtersClaim : SearchFilters :=
  SearchFilters.mk (some true) (some ["x", "y"]) (some "a@b.com")
    none none none none none none none none

/-- C7 amended: provided is_unread is not explicitly False, the query is the
space-join of exactly the clauses the specification lists, in the fixed
order; when is_unread is False an extra empty part is joined in.  On the
claim instance the parts are exactly is:unread, label:x, label:y,
from:a@b.com, once each and nothing else. -/
theorem c7_amended :
    (∀ f : SearchFilters, f.isUnread ≠ some false →
        buildSearchQuery f = String.intercalate " " (specQueryClauses f))
    ∧ searchQueryParts filtersClaim = ["is:unread", "label:x", "label:y", "from:a@b.com"]
    ∧ buildSearchQuery filtersClaim = "is:unread label:x label:y from:a@b.com" := by
  refine ⟨?_, rfl, rfl⟩
  intro f h
  unfold buildSearchQuery searchQueryParts specQueryClauses
  cases hu : f.isUnread with
  | none => simp
  | some b =>
    cases b with
    | true => simp
    | false => exact absurd hu h

/-- Witness for C7 amended at a concrete input. -/
theorem c7_witness :
    buildSearchQuery filtersClaim =
      String.intercalate " " (specQueryClauses filtersClaim) :=
  c7_amended.1 filtersClaim (by decide)

/-! ### Reply subject (gmail.py `create_reply_message`, lines 385 to 386) -/

/-- Python str.startswith: prefix test on the character sequence. -/
def pyStartsWith (s pre : String) : Bool :=
  pre.toList.isPrefixOf s.toList

/-- The reply subject computation:
`original_subject if original_subject.startswith("Re:") else f"Re: {original_subject}"`. -/
def replySubject (originalSubject : String) : String :=
  if pyStartsWith originalSubject "Re:" then originalSubject
  else "Re: " ++ originalSubject

lemma pyStartsWith_re_append (s : String) : pyStartsWith ("Re: " ++ s) "Re:" = true := by
  have h1 : "Re: ".data = ['R', 'e', ':', ' '] := rfl
  have h2 : "Re:".data = ['R', 'e', ':'] := rfl
  simp [pyStartsWith, String.toList, String.data_append, h1, h2, List.isPrefixOf]

/-- C10: a subject already carrying the literal Re: prefix is kept unchanged,
any other subject is prefixed with Re and a space, and the transformation is
idempotent — replying to a reply never stacks prefixes. -/
theorem c10_reply_subject :
    (∀ s, pyStartsWith s "Re:" = true → replySubject s = s)
    ∧ (∀ s, pyStartsWith s "Re:" = false → replySubject s = "Re: " ++ s)
    ∧ (∀ s, replySubject (replySubject s) = replySubject s) := by
  refine ⟨?_, ?_, ?_⟩
  · intro s h
    simp [replySubject, h]
  · intro s h
    simp [replySubject, h]
  · intro s
    by_cases h : pyStartsWith s "Re:" = true
    · simp [replySubject, h]
    · have hf : pyStartsWith s "Re:" = false := bool_not_true_eq_false h
      rw [show replySubject s = "Re: " ++ s by simp [replySubject, hf]]
      simp [replySubject, pyStartsWith_re_append]

/-- Witness for C10 at concrete subjects. -/
theorem c10_witness :
    replySubject "Weekly sync" = "Re: Weekly sync"
    ∧ replySubject "Re: Weekly sync" = "Re: Weekly sync" :=
  ⟨c10_reply_subject.2.1 "Weekly sync" (by decide),
   c10_reply_subject.1 "Re: Weekly sync" (by decide)⟩

/-! ### Reply-all address computation (gmail.py lines 322 until 416) -/

/-- Index of the first occurrence of a character (Python str.index on a
string known as containing the character). -/
def charIndex (c : Char) : List Char → Nat
  | [] => 0
  | x :: xs => if x = c then 0 else charIndex c xs + 1

/-- Python str.lower restricted, as suffices for the ASCII addresses at play. -/
def pyLower (s : String) : String :=
  String.mk (s.toList.map Char.toLower)

/-- Python str.strip: drop whitespace from both ends. -/
def pyStrip (s : String) : String :=
  String.mk (((s.toList.dropWhile Char.isWhitespace).reverse.dropWhile
    Char.isWhitespace).reverse)

/-- Helper for Python str.split on a comma: accumulate the current piece. -/
def splitCommaAux : List Char → List Char → List String
  | [], cur => [String.mk cur.reverse]
  | c :: cs, cur =>
    if c = ',' then String.mk cur.reverse :: splitCommaAux cs []
    else splitCommaAux cs (c :: cur)

/-- Python str.split with separator a comma (the empty string yields one
empty piece). -/
def pySplitCommas (s : String) : List String :=
  splitCommaAux s.toList []

/-- gmail.py `_extract_email`: the bare lowercase address, taking the text
between the first angle brackets when both are present (an empty slice when
the closing bracket comes first, as in Python). -/
def extractEmail (address : String) : String :=
  if address.toList.elem '<' && address.toList.elem '>' then
    let cs := address.toList
    let i := charIndex '<' cs
    let j := charIndex '>' cs
    pyLower (String.mk ((cs.drop (i + 1)).take (j - (i + 1))))
  else pyLower (pyStrip address)

/-- gmail.py `_parse_email_addresses`: split a comma-separated header, strip
each piece, drop empties. -/
def parseEmailAddresses (headerValue : String) : List String :=
  if headerValue == "" then []
  else ((pySplitCommas headerValue).map pyStrip).filter (fun a => a != "")

/-- The reply_all_cc list of create_reply_message: all original To plus Cc
addresses whose bare email is neither the sender nor the resolved primary
recipient. -/
def replyAllBase (sender toAddr origTo origCc : String) : List String :=
  (parseEmailAddresses origTo ++ parseEmailAddresses origCc).filter
    (fun addr => !(extractEmail addr == extractEmail sender)
      && !(extractEmail addr == extractEmail toAddr))

/-- The cc list finally set on the reply (lines 391 until 416): when an explicit
cc is truthy it is parsed and the reply-all addresses not already present
(by bare email) are appended; otherwise the reply-all list itself is used,
and an empty list stands for leaving the cc header unset. -/
def computeReplyAllCc (sender toAddr origTo origCc : String) (cc : Option String) : List String :=
  let replyAllCc := replyAllBase sender toAddr origTo origCc
  match cc with
  | some c =>
    if c == "" then (if replyAllCc.isEmpty then [] else replyAllCc)
    else
      let explicitCc := parseEmailAddresses c
      let explicitEmails := explicitCc.map extractEmail
      explicitCc ++ replyAllCc.filter (fun addr => !(explicitEmails.elem (extractEmail addr)))
  | none => (if replyAllCc.isEmpty then [] else replyAllCc)

/-- The header string an optional explicit cc contributes (absent and empty
behave alike). -/
def optCcStr : Option String → String
  | some c => c
  | none => ""

lemma if_isEmpty_eq (l : List String) : (if l.isEmpty then ([] : List String) else l) = l := by
  cases l <;> simp

lemma mem_replyAllBase (sender toAddr origTo origCc e : String) :
    e ∈ (replyAllBase sender toAddr origTo origCc).map extractEmail ↔
      (e ∈ ((parseEmailAddresses origTo ++ parseEmailAddresses origCc).map extractEmail)
        ∧ e ≠ extractEmail sender ∧ e ≠ extractEmail toAddr) := by
  unfold replyAllBase
  constructor
  · intro h
    rcases List.mem_map.mp h with ⟨a, ha, rfl⟩
    rcases List.mem_filter.mp ha with ⟨hmem, hcond⟩
    simp only [Bool.and_eq_true, Bool.not_eq_true', beq_eq_false_iff_ne, ne_eq] at hcond
    exact ⟨List.mem_map.mpr ⟨a, hmem, rfl⟩, hcond.1, hcond.2⟩
  · rintro ⟨hmem, h1, h2⟩
    rcases List.mem_map.mp hmem with ⟨a, ha, rfl⟩
    refine List.mem_map.mpr ⟨a, List.mem_filter.mpr ⟨ha, ?_⟩, rfl⟩
    simp only [Bool.and_eq_true, Bool.not_eq_true', beq_eq_false_iff_ne, ne_eq]
    exact ⟨h1, h2⟩

lemma mem_filter_not_elem (l es : List String) (e : String) :
    e ∈ (l.filter (fun a => !(es.elem (extractEmail a)))).map extractEmail ↔
      (e ∈ l.map extractEmail ∧ e ∉ es) := by
  constructor
  · intro h
    rcases List.mem_map.mp h with ⟨a, ha, rfl⟩
    rcases List.mem_filter.mp ha with ⟨hmem, hcond⟩
    simp only [Bool.not_eq_true'] at hcond
    refine ⟨List.mem_map.mpr ⟨a, hmem, rfl⟩, fun hin => ?_⟩
    rw [List.elem_iff.mpr hin] at hcond
    exact Bool.noConfusion hcond
  · rintro ⟨hmem, hnin⟩
    rcases List.mem_map.mp hmem with ⟨a, ha, rfl⟩
    refine List.mem_map.mpr ⟨a, List.mem_filter.mpr ⟨ha, ?_⟩, rfl⟩
    simp only [Bool.not_eq_true']
    cases he : es.elem (extractEmail a) with
    | false => rfl
    | true => exact absurd (List.elem_iff.mp he) hnin

/-- C8: with reply_all enabled, the set of bare (case-insensitive,
display-name-free) addresses in the computed cc is the union of the original
To plus Cc addresses minus the sender and the resolved primary recipient,
together with all explicitly supplied cc addresses; merging never duplicates
an address already explicitly supplied; and on the claim instance
(To a and b, Cc c, sender b, recipient a) the computed cc is exactly c. -/
theorem c8_reply_all_cc :
    (∀ sender toAddr origTo origCc : String, ∀ cc : Option String, ∀ e : String,
      e ∈ (computeReplyAllCc sender toAddr origTo origCc cc).map extractEmail ↔
        (e ∈ (parseEmailAddresses (optCcStr cc)).map extractEmail
          ∨ (e ∈ ((parseEmailAddresses origTo ++ parseEmailAddresses origCc).map extractEmail)
              ∧ e ≠ extractEmail sender ∧ e ≠ extractEmail toAddr)))
    ∧ (∀ sender toAddr origTo origCc c e,
        e ∈ (parseEmailAddresses c).map extractEmail →
          List.count e ((computeReplyAllCc sender toAddr origTo origCc (some c)).map extractEmail)
            = List.count e ((parseEmailAddresses c).map extractEmail))
    ∧ computeReplyAllCc "b@x.com" "a@x.com" "a@x.com, b@x.com" "c@x.com" none
        = ["c@x.com"] := by
  refine ⟨?_, ?_, rfl⟩
  · intro sender toAddr origTo origCc cc e
    cases cc with
    | none =>
      simp only [computeReplyAllCc, optCcStr, if_isEmpty_eq]
      rw [mem_replyAllBase]
      have hpe : parseEmailAddresses "" = [] := rfl
      simp [hpe]
    | some c =>
      by_cases hc : c = ""
      · subst hc
        simp only [computeReplyAllCc, optCcStr]
        rw [if_pos (by rfl), if_isEmpty_eq, mem_replyAllBase]
        have hpe : parseEmailAddresses "" = [] := rfl
        simp [hpe]
      · have hcb : (c == "") = false := by simp [hc]
        simp only [computeReplyAllCc, optCcStr, hcb, Bool.false_eq_true, if_false,
          List.map_append, List.mem_append]
        rw [mem_filter_not_elem, mem_replyAllBase]
        by_cases he : e ∈ (parseEmailAddresses c).map extractEmail
        · simp [he]
        · simp [he]
  · intro sender toAddr origTo origCc c e he
    by_cases hc : c = ""
    · subst hc
      have hpe : parseEmailAddresses "" = [] := rfl
      rw [hpe] at he
      cases he
    · have hcb : (c == "") = false := by simp [hc]
      simp only [computeReplyAllCc, hcb, Bool.false_eq_true, if_false,
        List.map_append, List.count_append]
      have hzero :
          List.count e (((replyAllBase sender toAddr origTo origCc).filter
            (fun addr => !(((parseEmailAddresses c).map extractEmail).elem
              (extractEmail addr)))).map extractEmail) = 0 := by
        rw [List.count_eq_zero]
        intro hmem
        exact (mem_filter_not_elem _ _ _ |>.mp hmem).2 he
      rw [hzero, Nat.add_zero]

/-- Witness for C8 (second conjunct has a hypothesis) at concrete inputs:
an explicitly supplied cc already containing c is not duplicated by the
merge. -/
theorem c8_witness :
    List.count "c@x.com"
        ((computeReplyAllCc "b@x.com" "a@x.com" "a@x.com, b@x.com" "c@x.com"
          (some "c@x.com")).map extractEmail)
      = List.count "c@x.com" ((parseEmailAddresses "c@x.com").map extractEmail) :=
  c8_reply_all_cc.2.1 "b@x.com" "a@x.com" "a@x.com, b@x.com" "c@x.com" "c@x.com"
    "c@x.com" (by decide)

/-! ### Batch get (server.py `get_emails`, lines 733 to 774) -/

/-- Concatenation of the incrementally built result string pieces. -/
def strJoin : List String → String
  | [] => ""
  | s :: rest => s ++ strJoin rest

/-- Python enumerate with a start index. -/
def pyEnum {α : Type} (n : Nat) : List α → List (Nat × α)
  | [] => []
  | x :: xs => (n, x) :: pyEnum (n + 1) xs

/-- The fetch loop of get_emails: one try per id, successes and per-item
errors collected in order into two lists. -/
def fetchLoop {μ : Type} (fetch : String → Except String μ) :
    List String → List (String × μ) × List (String × String) →
      List (String × μ) × List (String × String)
  | [], acc => acc
  | msgId :: rest, acc =>
    match fetch msgId with
    | Except.ok m => fetchLoop fetch rest (acc.1 ++ [(msgId, m)], acc.2)
    | Except.error e => fetchLoop fetch rest (acc.1, acc.2 ++ [(msgId, e)])

/-- One formatted success block. -/
def emailBlock {μ : Type} (fmt : μ → String) (p : Nat × (String × μ)) : String :=
  "\n--- Email " ++ toString p.1 ++ " (ID: " ++ p.2.1 ++ ") ---\n" ++ fmt p.2.2

/-- One per-item error block. -/
def errorBlock (p : Nat × (String × String)) : String :=
  "\n--- Email " ++ toString p.1 ++ " (ID: " ++ p.2.1 ++ ") ---\n"
    ++ "Error: " ++ p.2.2 ++ "\n"

/-- server.py get_emails: fetch every id, never propagating a per-item
failure, then report all successes followed by all per-item errors.
`fetch` is the per-id outcome of gmail.get_message and `fmt` is
format_message. -/
def getEmails {μ : Type} (fetch : String → Except String μ) (fmt : μ → String)
    (messageIds : List String) : String :=
  if messageIds.isEmpty then "No message IDs provided."
  else
    let pr := fetchLoop fetch messageIds ([], [])
    let retrieved := pr.1
    let errorEmails := pr.2
    let result :=
      "Retrieved " ++ toString retrieved.length ++ " emails:\n"
        ++ strJoin ((pyEnum 1 retrieved).map (emailBlock fmt))
    if errorEmails.isEmpty then result
    else
      result ++ "\n\nFailed to retrieve " ++ toString errorEmails.length ++ " emails:\n"
        ++ strJoin ((pyEnum 1 errorEmails).map errorBlock)

/-- The success projection of one fetch outcome. -/
def fok {μ : Type} (fetch : String → Except String μ) (i : String) : Option (String × μ) :=
  match fetch i with
  | Except.ok m => some (i, m)
  | Except.error _ => none

/-- The error projection of one fetch outcome. -/
def ferr {μ : Type} (fetch : String → Except String μ) (i : String) : Option (String × String) :=
  match fetch i with
  | Except.ok _ => none
  | Except.error e => some (i, e)

lemma strEmptyAppend (s : String) : "" ++ s = s := by
  have h0 : ("" : String).data = [] := rfl
  apply String.ext
  rw [String.data_append, h0, List.nil_append]

lemma strAppendEmpty (s : String) : s ++ "" = s := by
  have h0 : ("" : String).data = [] := rfl
  apply String.ext
  rw [String.data_append, h0, List.append_nil]

lemma strAppendAssoc (a b c : String) : a ++ b ++ c = a ++ (b ++ c) := by
  apply String.ext
  rw [String.data_append, String.data_append, String.data_append, String.data_append,
    List.append_assoc]

lemma fetchLoop_eq {μ : Type} (fetch : String → Except String μ) :
    ∀ (ids : List String) (acc : List (String × μ) × List (String × String)),
      fetchLoop fetch ids acc =
        (acc.1 ++ ids.filterMap (fok fetch), acc.2 ++ ids.filterMap (ferr fetch)) := by
  intro ids
  induction ids with
  | nil => intro acc; simp [fetchLoop]
  | cons i rest ih =>
    intro acc
    cases hf : fetch i with
    | ok m => simp [fetchLoop, hf, ih, fok, ferr, List.filterMap_cons]
    | error e => simp [fetchLoop, hf, ih, fok, ferr, List.filterMap_cons]

lemma mem_pyEnum {α : Type} (a : α) :
    ∀ (l : List α) (n : Nat), a ∈ l → ∃ k, (k, a) ∈ pyEnum n l := by
  intro l
  induction l with
  | nil => intro n h; cases h
  | cons x xs ih =>
    intro n h
    rcases List.mem_cons.mp h with rfl | h2
    · refine ⟨n, ?_⟩
      rw [show pyEnum n (a :: xs) = (n, a) :: pyEnum (n + 1) xs from rfl]
      exact List.mem_cons_self _ _
    · rcases ih (n + 1) h2 with ⟨k, hk⟩
      refine ⟨k, ?_⟩
      rw [show pyEnum n (x :: xs) = (n, x) :: pyEnum (n + 1) xs from rfl]
      exact List.mem_cons_of_mem _ hk

lemma strJoin_decomp {α : Type} (f : α → String) (a : α) :
    ∀ l : List α, a ∈ l → ∃ s t, strJoin (l.map f) = s ++ (f a ++ t) := by
  intro l
  induction l with
  | nil => intro h; cases h
  | cons x xs ih =>
    intro h
    rcases List.mem_cons.mp h with rfl | h2
    · refine ⟨"", strJoin (xs.map f), ?_⟩
      rw [List.map_cons, strEmptyAppend]
      rfl
    · rcases ih h2 with ⟨s, t, hst⟩
      refine ⟨f x ++ s, t, ?_⟩
      rw [List.map_cons, strAppendAssoc]
      show f x ++ strJoin (xs.map f) = f x ++ (s ++ (f a ++ t))
      rw [hst]

lemma getEmails_eq {μ : Type} (fetch : String → Except String μ) (fmt : μ → String)
    (ids : List String) (hne : ids.isEmpty = false) :
    getEmails fetch fmt ids =
      "Retrieved " ++ toString (ids.filterMap (fok fetch)).length ++ " emails:\n"
        ++ strJoin ((pyEnum 1 (ids.filterMap (fok fetch))).map (emailBlock fmt))
        ++ (if (ids.filterMap (ferr fetch)).isEmpty then ""
            else "\n\nFailed to retrieve " ++ toString (ids.filterMap (ferr fetch)).length
              ++ " emails:\n" ++ strJoin ((pyEnum 1 (ids.filterMap (ferr fetch))).map errorBlock)) := by
  unfold getEmails
  rw [if_neg (by rw [hne]; exact Bool.noConfusion)]
  rw [fetchLoop_eq fetch ids ([], [])]
  simp only [List.nil_append]
  by_cases he : (ids.filterMap (ferr fetch)).isEmpty = true
  · rw [if_pos he, if_pos he, strAppendEmpty]
  · rw [if_neg he, if_neg he]
    simp only [strAppendAssoc]

/-- C9: a per-item fetch failure never aborts or raises out of the batch get
operation (its result is a total function of the per-id outcomes): every id
that fetched successfully has its formatted content inside the result
string, and every id that failed has its error reported inside the result
string alongside the successes. -/
theorem c9_batch_reporting {μ : Type} (fetch : String → Except String μ) (fmt : μ → String)
    (ids : List String) (i : String) (hi : i ∈ ids) :
    (∀ m, fetch i = Except.ok m →
      ∃ s t, getEmails fetch fmt ids = s ++ (fmt m ++ t))
    ∧ (∀ e, fetch i = Except.error e →
      ∃ s t, getEmails fetch fmt ids = s ++ ("Error: " ++ e ++ "\n" ++ t)) := by
  have hne : ids.isEmpty = false := by
    cases ids with
    | nil => cases hi
    | cons x xs => rfl
  constructor
  · intro m hm
    have hmem : (i, m) ∈ ids.filterMap (fok fetch) :=
      List.mem_filterMap.mpr ⟨i, hi, by simp [fok, hm]⟩
    rcases mem_pyEnum (i, m) (ids.filterMap (fok fetch)) 1 hmem with ⟨k, hk⟩
    rcases strJoin_decomp (emailBlock fmt) (k, (i, m)) _ hk with ⟨s, t, hst⟩
    rw [getEmails_eq fetch fmt ids hne, hst]
    refine ⟨"Retrieved " ++ toString (ids.filterMap (fok fetch)).length ++ " emails:\n"
      ++ (s ++ ("\n--- Email " ++ toString k ++ " (ID: " ++ i ++ ") ---\n")),
      t ++ (if (ids.filterMap (ferr fetch)).isEmpty then ""
        else "\n\nFailed to retrieve " ++ toString (ids.filterMap (ferr fetch)).length
          ++ " emails:\n" ++ strJoin ((pyEnum 1 (ids.filterMap (ferr fetch))).map errorBlock)), ?_⟩
    simp only [emailBlock, strAppendAssoc]
  · intro e hm
    have hmem : (i, e) ∈ ids.filterMap (ferr fetch) :=
      List.mem_filterMap.mpr ⟨i, hi, by simp [ferr, hm]⟩
    have hee : (ids.filterMap (ferr fetch)).isEmpty = false := by
      cases hl : ids.filterMap (ferr fetch) with
      | nil => rw [hl] at hmem; cases hmem
      | cons x xs => rfl
    rcases mem_pyEnum (i, e) (ids.filterMap (ferr fetch)) 1 hmem with ⟨k, hk⟩
    rcases strJoin_decomp errorBlock (k, (i, e)) _ hk with ⟨s, t, hst⟩
    rw [getEmails_eq fetch fmt ids hne,
      if_neg (by rw [hee]; exact Bool.noConfusion), hst]
    refine ⟨"Retrieved " ++ toString (ids.filterMap (fok fetch)).length ++ " emails:\n"
      ++ strJoin ((pyEnum 1 (ids.filterMap (fok fetch))).map (emailBlock fmt))
      ++ ("\n\nFailed to retrieve " ++ toString (ids.filterMap (ferr fetch)).length
        ++ " emails:\n")
      ++ (s ++ ("\n--- Email " ++ toString k ++ " (ID: " ++ i ++ ") ---\n")),
      t, ?_⟩
    simp only [errorBlock, strAppendAssoc]

/-- A concrete fetch outcome map: one id succeeds, the other fails. -/
def fetch0 : String → Except String String := fun i =>
  if i = "good" then Except.ok ("BODY-" ++ i) else Except.error ("fail-" ++ i)

/-- Witness for C9 at concrete inputs. -/
theorem c9_witness :
    (∃ s t, getEmails fetch0 (fun m => m) ["good", "bad"] = s ++ ("BODY-good" ++ t))
    ∧ (∃ s t, getEmails fetch0 (fun m => m) ["good", "bad"]
        = s ++ ("Error: " ++ "fail-bad" ++ "\n" ++ t)) :=
  ⟨(c9_batch_reporting fetch0 (fun m => m) ["good", "bad"] "good"
      (by simp)).1 "BODY-good" (by rfl),
   (c9_batch_reporting fetch0 (fun m => m) ["good", "bad"] "bad"
      (by simp)).2 "fail-bad" (by rfl)⟩

end McpGmail
